import Mathlib

set_option linter.unusedVariables false

/-!
Shallow embedding of the p2pool-exporter core (Python) in Lean 4.

Source files embedded:
- `p2pool_exporter/utils.py` : `prune_shares`, `estimate_hashrate`
- `p2pool_exporter/api.py`   : `get_payouts`, `get_sideblocks`,
  `websocket_listener` (message dispatch + reconnect loop)
- `p2pool_exporter/__main__.py` : the listener's per-miner share window.

Conventions:
- Python floats/JSON numbers are modelled as `ℚ`; timestamps derived from
  the side-blocks API as `ℤ`; payout ids as `ℕ`.
- A Python `dict` stored in redis under `miner:{address}` is modelled as an
  `AccountRecord` with `Option` fields (a missing key is `none`); an absent
  redis key is `Option AccountRecord = none`.
- Fallible Python code (an expression that can raise) is modelled with
  `Except Unit`.
-/

namespace P2Pool

/-- A share sample `{timestamp, difficulty}` held in a per-miner window. -/
structure Share where
  timestamp : ℚ
  difficulty : ℚ
  deriving DecidableEq, Repr

/-- Embeds `utils.estimate_hashrate(accepted_shares, window_seconds=600)`.
`now` stands for the value of `time.time()` at the call.  The Python body
filters `now - s["timestamp"] <= window_seconds`, sums the difficulties and
returns `total_difficulty / window_seconds`; the division raises
`ZeroDivisionError` when `window_seconds == 0`, modelled as `.error ()`. -/
def estimate_hashrate (now : ℚ) (accepted_shares : List Share)
    (window_seconds : ℚ) : Except Unit ℚ :=
  let recent_shares := accepted_shares.filter
    (fun s => now - s.timestamp ≤ window_seconds)
  let total_difficulty := (recent_shares.map (fun s => s.difficulty)).sum
  if window_seconds = 0 then .error ()
  else .ok (total_difficulty / window_seconds)

/-- Embeds `prune_shares(accepted_shares, window_seconds)` (identical in
`utils.py` and `__main__.py`) at its only call site,
`__main__.websocket_listener`, where every element of the window is a dict
literal `{"timestamp": ..., "difficulty": ...}` — the representation
`Share` models.  The body evaluates
`list(filter(lambda share: share.timestamp < time.time() - window_seconds,
accepted_shares))`: on an empty list the lambda is never called, the empty
result is bound to the *local name* `accepted_shares` (rebinding the
parameter, leaving the caller's list object untouched) and the body, having
no `return`, evaluates to `None`; on a non-empty list the lambda's
*attribute* access `share.timestamp` on a dict raises `AttributeError`
before any comparison, so the call raises instead of returning.  The result
models `(outcome of the call, caller's list after the call)`: `.ok ()` for
a normal `None` return, `.error ()` for the raise; the caller's list is
unmutated either way. -/
def prune_shares (now : ℚ) (accepted_shares : List Share)
    (window_seconds : ℚ) : Except Unit Unit × List Share :=
  (if accepted_shares.isEmpty then .ok () else .error (), accepted_shares)

/-- The per-miner record stored in redis under `miner:{address}` (a JSON
dict; each `Option` field is a dict key that may be absent). -/
structure AccountRecord where
  last_share_height : Option ℤ := none
  last_share_timestamp : Option ℤ := none
  total_blocks : Option ℕ := none
  hashrate : Option ℚ := none
  payouts : Option ℚ := none
  last_payout_id : Option ℕ := none
  deriving DecidableEq, Repr

/-- The part of a `/api/payouts/{miner}?search_limit=1` response element that
`get_payouts` reads: `response[0]["main_id"]` and
`response[0]["coinbase_reward"]`. -/
structure PayoutResponse where
  main_id : ℕ
  coinbase_reward : ℚ
  deriving DecidableEq, Repr

/-- Embeds the state-updating part of `api.get_payouts`: given the stored
record for the miner (`none` when the redis key is absent, in which case
`cur_data` is the falsy `{}`) and the freshest payout returned by the API,
produce the record written back.

Python:
```
cur_data = await redis_client.get(f"miner:{miner}") or {}
new_data = {"last_payout_id": response[0]["main_id"]}
if cur_data:
    cur_data = json.loads(cur_data)
    prev_payout = cur_data.get("payouts") or 0
    prev_payout_id = cur_data.get("last_payout_id") or 0
    if prev_payout_id != new_data["last_payout_id"]:
        new_data["payouts"] = prev_payout + response[0]["coinbase_reward"]
    new_data = cur_data | new_data
await redis_client.set(f"miner:{miner}", json.dumps(new_data), ex=3600)
```
`x or 0` on a numeric/absent value is `Option.getD 0`. -/
def get_payouts (stored : Option AccountRecord) (resp : PayoutResponse) :
    AccountRecord :=
  match stored with
  | none => { last_payout_id := some resp.main_id }
  | some cur =>
      let prev_payout := cur.payouts.getD 0
      let prev_payout_id := cur.last_payout_id.getD 0
      let new_payouts :=
        if prev_payout_id ≠ resp.main_id then
          some (prev_payout + resp.coinbase_reward)
        else cur.payouts
      { cur with payouts := new_payouts, last_payout_id := some resp.main_id }

/-- A dict-shaped element of a `/api/side_blocks_in_window/{miner}` response;
a `none` in the response list models a non-dict (malformed) element. -/
structure SBEntry where
  timestamp : ℤ
  difficulty : ℚ
  deriving DecidableEq, Repr

/-- The `last_timestamp` derived by the loop in `api.get_sideblocks`:
starting from `0`, for each dict-shaped entry `b`, if
`b["timestamp"] > last_timestamp` then `last_timestamp = b["timestamp"]`. -/
def derived_last_timestamp (response : List (Option SBEntry)) : ℤ :=
  (response.filterMap id).foldl
    (fun acc b => if acc < b.timestamp then b.timestamp else acc) 0

/-- Embeds the state-updating part of `api.get_sideblocks`: the loop counts
dict-shaped entries into `total_blocks` and derives `last_timestamp`; the
`new_data` dict carries `total_blocks`, `last_share_timestamp` and
`hashrate = estimate_hashrate([... for s in response])` (that list
comprehension indexes every element, so a non-dict element raises and nothing
is written); then, when a record was stored,
```
prev_timestamp = data.get("last_share_timestamp")
# also checks if prev timestamp is 0
if prev_timestamp and prev_timestamp >= last_timestamp:
    new_data["last_share_timestamp"] = prev_timestamp
new_data = data | new_data
```
(`prev_timestamp and ...` is Python truthiness: `none` and `some 0` fail). -/
def get_sideblocks (stored : Option AccountRecord)
    (response : List (Option SBEntry)) (now : ℚ) :
    Except Unit AccountRecord :=
  let blocks := response.filterMap id
  let total_blocks := blocks.length
  let last_timestamp := derived_last_timestamp response
  if response.any Option.isNone then .error ()
  else
    match estimate_hashrate now
      (blocks.map (fun b => { timestamp := (b.timestamp : ℚ),
                              difficulty := b.difficulty })) 600 with
    | .error e => .error e
    | .ok hr =>
      match stored with
      | none =>
          .ok { total_blocks := some total_blocks,
                last_share_timestamp := some last_timestamp,
                hashrate := some hr }
      | some data =>
          let kept : ℤ :=
            match data.last_share_timestamp with
            | some p => if p ≠ 0 ∧ last_timestamp ≤ p then p else last_timestamp
            | none => last_timestamp
          .ok { data with total_blocks := some total_blocks,
                          last_share_timestamp := some kept,
                          hashrate := some hr }

/-- The `"side_block"` payload of a stream message, as read by
`api.websocket_listener`: both difficulty keys are tested with `in` before
being read, so each may be absent. -/
structure SideBlockPayload where
  main_difficulty : Option ℚ := none
  difficulty : Option ℚ := none
  deriving DecidableEq, Repr

/-- The `"found_block"` payload of a stream message: the listener reads
`msg["found_block"]["main_block"]["difficulty"]` and
`msg["found_block"]["difficulty"]` without guarding, so an absent key is
modelled and raises on access. -/
structure FoundBlockPayload where
  main_block_difficulty : Option ℚ := none
  difficulty : Option ℚ := none
  deriving DecidableEq, Repr

/-- A decoded JSON stream message.  `type = none` models a frame whose JSON
object has no `"type"` key, so that `msg["type"]` raises `KeyError`;
likewise for the two payload keys. -/
structure WsMessage where
  type : Option String := none
  side_block : Option SideBlockPayload := none
  found_block : Option FoundBlockPayload := none
  deriving DecidableEq, Repr

/-- The telemetry instruments touched by `api.websocket_listener`:
`ws_event_counter`, the per-type `blocks_c` counter, the two labellings of
`difficulty_g`, and the count of `logger.warn` calls from the unknown-type
branch. -/
structure WsMetrics where
  ws_event_counter : ℕ := 0
  blocks_sideblock : ℕ := 0
  blocks_found : ℕ := 0
  blocks_orphaned : ℕ := 0
  difficulty_main : Option ℚ := none
  difficulty_side : Option ℚ := none
  unknown_warn_count : ℕ := 0
  deriving DecidableEq, Repr

/-- Embeds the per-message body of the `async for` loop in
`api.websocket_listener`.  Returns the metrics state after the body together
with `.error ()` when the body raised (instrument mutations made before the
raise persist, as they do in Python) or `.ok ()` when it ran to the end.
The raises modelled are the unguarded subscripts: `msg["type"]`,
`msg["side_block"]` (indexed by the two `in` tests), and
`msg["found_block"]["main_block"]["difficulty"]` /
`msg["found_block"]["difficulty"]`. -/
def ws_dispatch (m : WsMetrics) (msg : WsMessage) :
    WsMetrics × Except Unit Unit :=
  let m := { m with ws_event_counter := m.ws_event_counter + 1 }
  match msg.type with
  | none => (m, .error ())
  | some t =>
    if t = "side_block" then
      match msg.side_block with
      | none => (m, .error ())
      | some sb =>
        let m := match sb.main_difficulty with
          | some d => { m with difficulty_main := some d }
          | none => m
        let m := match sb.difficulty with
          | some d => { m with difficulty_side := some d }
          | none => m
        ({ m with blocks_sideblock := m.blocks_sideblock + 1 }, .ok ())
    else if t = "found_block" then
      match msg.found_block with
      | none =>
          ({ m with blocks_found := m.blocks_found + 1 }, .error ())
      | some fb =>
        let m := { m with blocks_found := m.blocks_found + 1 }
        match fb.main_block_difficulty with
        | none => (m, .error ())
        | some dm =>
          let m := { m with difficulty_main := some dm }
          match fb.difficulty with
          | none => (m, .error ())
          | some ds => ({ m with difficulty_side := some ds }, .ok ())
    else if t = "orphaned_block" then
      ({ m with blocks_orphaned := m.blocks_orphaned + 1 }, .ok ())
    else
      ({ m with unknown_warn_count := m.unknown_warn_count + 1 }, .ok ())

/-- The `async for` loop over one connection's messages: each message runs
through `ws_dispatch`; a raise propagates out of the loop (second component
`true`, the connection is abandoned), otherwise the loop moves to the next
message on the same connection. -/
def ws_process_messages (m : WsMetrics) :
    List WsMessage → WsMetrics × Bool
  | [] => (m, false)
  | msg :: rest =>
    match ws_dispatch m msg with
    | (m1, .error _) => (m1, true)
    | (m1, .ok _) => ws_process_messages m1 rest

/-- What one connection attempt inside the `while True` loop delivers:
either `ws_connect` itself raised, or a stream of messages was delivered
before the connection closed cleanly. -/
inductive ConnAttempt where
  | failed
  | stream (msgs : List WsMessage)
  deriving DecidableEq, Repr

/-- What the listener does after one pass through the `while True` body. -/
inductive ListenerAction where
  | sleepThenReconnect (seconds : ℕ)
  | reconnectImmediately
  | terminate
  deriving DecidableEq, Repr

/-- Embeds one pass through the `while True` body of
`api.websocket_listener`: everything inside is wrapped in
`try ... except Exception: logger.warn(...); await asyncio.sleep(5)`, and
the loop then iterates; nothing in the body breaks out of the loop. -/
def listener_iteration (m : WsMetrics) (c : ConnAttempt) :
    WsMetrics × ListenerAction :=
  match c with
  | .failed => (m, .sleepThenReconnect 5)
  | .stream msgs =>
    match ws_process_messages m msgs with
    | (m1, true) => (m1, .sleepThenReconnect 5)
    | (m1, false) => (m1, .reconnectImmediately)

/-- The listener's trace: the metrics state and action after the `n`-th pass
through the `while True` loop, given what each connection attempt delivers.
Defined for every `n`, reflecting that the loop never exits. -/
def listener_trace (m : WsMetrics) (conns : ℕ → ConnAttempt) :
    ℕ → WsMetrics × ListenerAction
  | 0 => listener_iteration m (conns 0)
  | n + 1 => listener_iteration (listener_trace m conns n).1 (conns (n + 1))

/-- Embeds the per-tracked-miner window update in
`__main__.websocket_listener` for a `side_block` message attributed to a
tracked miner: `accepted_shares[miner].append({...})` mutates the window,
then `prune_shares(accepted_shares[miner], window_seconds)` runs on the now
non-empty window.  `__main__.websocket_listener` has no `try`/`except`, so
a raise inside `prune_shares` propagates out of the listener; the raise is
modelled as `.error ()`, a normal return as `.ok (window after the call)`. -/
def main_ws_window_step (now : ℚ) (window : List Share) (s : Share)
    (window_seconds : ℚ) : Except Unit (List Share) :=
  match prune_shares now (window ++ [s]) window_seconds with
  | (.ok _, win) => .ok win
  | (.error e, _) => .error e

/-- The per-miner window over the life of one connection in
`__main__.websocket_listener`: starting from the empty list built before the
loop, fold the window update over every accepted share event
`(now at arrival, share)`; a raise in any step propagates (the listener has
no handler). -/
def main_ws_window_run (events : List (ℚ × Share)) (window_seconds : ℚ) :
    Except Unit (List Share) :=
  events.foldl
    (fun acc e =>
      match acc with
      | .error er => .error er
      | .ok win => main_ws_window_step e.1 win e.2 window_seconds)
    (.ok [])

/-- A sequence of side-block polls applied to a stored record: each
successful poll overwrites the stored record, a poll that raises leaves it
unchanged (the redis `set` is never reached).  Each poll is a pair
`(response, now)`. -/
def sideblocks_poll_seq (init : AccountRecord)
    (polls : List (List (Option SBEntry) × ℚ)) : AccountRecord :=
  polls.foldl
    (fun rec p =>
      match get_sideblocks (some rec) p.1 p.2 with
      | .ok r => r
      | .error _ => rec) init

deriving instance DecidableEq for Except

/-! ## Helper lemmas -/

/-- Once a window-update step has raised, the fold over the remaining
events stays in the raised state. -/
theorem main_ws_window_foldl_error (events : List (ℚ × Share)) (w : ℚ) :
    events.foldl
      (fun (acc : Except Unit (List Share)) (e : ℚ × Share) =>
        match acc with
        | .error er => .error er
        | .ok win => main_ws_window_step e.1 win e.2 w)
      (.error ()) = .error () := by
  induction events with
  | nil => rfl
  | cons e rest ih =>
      rw [List.foldl_cons]
      exact ih

/-! ## Claims -/

/-- Claim C1, counterexample: at `window_seconds = 0` the Python division
raises `ZeroDivisionError`, so `estimate_hashrate` does not return the
filtered difficulty sum divided by `window_seconds` for *every*
`window_seconds`. -/
theorem claim1_counterexample :
    estimate_hashrate 600 [⟨0, 100⟩, ⟨500, 50⟩] 0 = .error () ∧
    estimate_hashrate 600 [⟨0, 100⟩, ⟨500, 50⟩] 0 ≠
      .ok (((([⟨0, 100⟩, ⟨500, 50⟩] : List Share).filter
        (fun s => 600 - s.timestamp ≤ 0)).map (fun s => s.difficulty)).sum
          / 0) := by
  refine ⟨by norm_num [estimate_hashrate], ?_⟩
  norm_num [estimate_hashrate]
  intro h
  exact Except.noConfusion h

/-- Claim C1 (amended): for every list of share samples and every *nonzero*
`window_seconds`, `estimate_hashrate` returns the sum of the difficulties of
the samples with `now - timestamp ≤ window_seconds`, divided by
`window_seconds`; in particular, for `window_seconds = 600` with samples at
`t = 0` (difficulty 100) and `t = 500` (difficulty 50) and `now = 600`, the
result is `150 / 600 = 1/4`.  (At `window_seconds = 0` the function raises
`ZeroDivisionError` instead of returning.) -/
theorem claim1_fixed_window_estimate (now : ℚ) (shares : List Share)
    (w : ℚ) (hw : w ≠ 0) :
    estimate_hashrate now shares w =
      .ok (((shares.filter (fun s => now - s.timestamp ≤ w)).map
        (fun s => s.difficulty)).sum / w) ∧
    estimate_hashrate 600 [⟨0, 100⟩, ⟨500, 50⟩] 600 = .ok (1 / 4) := by
  refine ⟨?_, by norm_num [estimate_hashrate, List.filter]⟩
  simp [estimate_hashrate, hw]

/-- Claim C1, witness of the amended statement at the spec's scenario. -/
theorem claim1_fixed_window_estimate_witness :
    (600 : ℚ) ≠ 0 ∧
    (estimate_hashrate 600 [⟨0, 100⟩, ⟨500, 50⟩] 600 =
      .ok ((((([⟨0, 100⟩, ⟨500, 50⟩] : List Share).filter
        (fun s => 600 - s.timestamp ≤ 600)).map
          (fun s => s.difficulty)).sum) / 600) ∧
     estimate_hashrate 600 [⟨0, 100⟩, ⟨500, 50⟩] 600 = .ok (1 / 4)) :=
  ⟨by norm_num,
   claim1_fixed_window_estimate 600 [⟨0, 100⟩, ⟨500, 50⟩] 600 (by norm_num)⟩

/-- Claim C8, counterexample: on the empty list with `window_seconds = 0`
the Python body computes `0 / 0` and raises `ZeroDivisionError`, so the
claim's "for every window_seconds ... neither raises nor divides by zero"
fails. -/
theorem claim8_counterexample :
    estimate_hashrate 0 [] 0 = .error () := by
  norm_num [estimate_hashrate]

/-- Claim C8 (amended): for the empty list of samples and every *nonzero*
`window_seconds`, `estimate_hashrate` returns 0 and does not raise; at
`window_seconds = 0` it raises `ZeroDivisionError`. -/
theorem claim8_empty_window_returns_zero (now w : ℚ) (hw : w ≠ 0) :
    estimate_hashrate now [] w = .ok 0 := by
  simp [estimate_hashrate, hw]

/-- Claim C8, witness of the amended statement at `now = 0`, `w = 600`. -/
theorem claim8_empty_window_returns_zero_witness :
    (600 : ℚ) ≠ 0 ∧ estimate_hashrate 0 [] 600 = .ok 0 :=
  ⟨by norm_num, claim8_empty_window_returns_zero 0 600 (by norm_num)⟩

/-- Claim C9, counterexample: on a non-empty window the filter's lambda
performs attribute access `share.timestamp` on a dict-shaped sample and
raises `AttributeError`, so `prune_shares` raises instead of returning
`None`, and already the first tracked share makes the listener's window
update raise rather than leave the sample sitting in the window. -/
theorem claim9_counterexample :
    (prune_shares 1000 [⟨500, 50⟩] 600).1 = .error () ∧
    main_ws_window_step 1000 [] ⟨500, 50⟩ 600 = .error () :=
  ⟨rfl, rfl⟩

/-- Claim C9 (amended): `prune_shares` never mutates the caller's list; on
the empty list the lambda is never called, only a local name is rebound and
the call returns `None`; but on every non-empty window of the dict-shaped
samples used at the call site, the lambda's attribute access
`share.timestamp` raises `AttributeError`, so the call raises instead of
returning `None` — hence every per-miner window update in
`__main__.websocket_listener` (append, then prune the now non-empty window,
with no exception handler around the loop) raises at its first sample: no
sample is ever pruned, and the listener crashes rather than retaining a
quietly growing window for the life of the connection. -/
theorem claim9_prune_raises_on_nonempty :
    (∀ (now : ℚ) (shares : List Share) (w : ℚ),
       (prune_shares now shares w).2 = shares) ∧
    (∀ (now w : ℚ), prune_shares now [] w = (.ok (), [])) ∧
    (∀ (now w : ℚ) (s : Share) (rest : List Share),
       (prune_shares now (s :: rest) w).1 = .error ()) ∧
    (∀ (now w : ℚ) (window : List Share) (s : Share),
       main_ws_window_step now window s w = .error ()) ∧
    (∀ (e : ℚ × Share) (rest : List (ℚ × Share)) (w : ℚ),
       main_ws_window_run (e :: rest) w = .error ()) := by
  have hstep : ∀ (now w : ℚ) (window : List Share) (s : Share),
      main_ws_window_step now window s w = .error () := by
    intro now w window s
    cases window <;> rfl
  refine ⟨fun now shares w => rfl, fun now w => rfl,
          fun now w s rest => rfl, hstep, ?_⟩
  intro e rest w
  simp only [main_ws_window_run, List.foldl_cons]
  rw [show main_ws_window_step e.1 [] e.2 w = .error () from
        hstep e.1 w [] e.2]
  exact main_ws_window_foldl_error rest w

/-- Claim C4 is what the code was meant to do but does not: evaluated at
`now = 1000`, `window_seconds = 600` on a window holding one sample with
`timestamp = 0`, the caller's window after the `prune_shares` call still
holds that sample although `timestamp < now - window_seconds` (the sample
is older than the window) — indeed the call raises `AttributeError` on the
dict-shaped sample instead of pruning; and even the filter expression the
source would bind to the discarded local *keeps* exactly the stale sample
(the comparison is inverted). -/
theorem claim4_stale_sample_survives_prune :
    (prune_shares 1000 [⟨0, 100⟩] 600).2 = [⟨0, 100⟩] ∧
    (prune_shares 1000 [⟨0, 100⟩] 600).1 = .error () ∧
    ((0 : ℚ) < 1000 - 600) ∧
    ([⟨0, 100⟩] : List Share).filter
      (fun share => share.timestamp < 1000 - 600) = [⟨0, 100⟩] := by
  exact ⟨rfl, rfl, by norm_num, by norm_num [List.filter]⟩

/-- Claim C10: for an account with no stored record (`cur_data` is the falsy
`{}`), `get_payouts` writes a record holding only `last_payout_id`; the
`payouts` field stays absent, so the first observed payout's
`coinbase_reward` is never accumulated. -/
theorem claim10_first_payout_only_stores_id (resp : PayoutResponse) :
    (get_payouts none resp).payouts = none ∧
    get_payouts none resp = { last_payout_id := some resp.main_id } := by
  exact ⟨rfl, rfl⟩

/-- Claim C2: payout dedup.  (i) Two consecutive polls returning the same
`last_payout_id` leave the stored `payouts` value unchanged by the second
poll; (ii) a poll returning a payout id different from the stored
`last_payout_id` sets `payouts` to the stored value (absent read as 0) plus
exactly that poll's `coinbase_reward`. -/
theorem claim2_payouts_dedup :
    (∀ (cur : AccountRecord) (r1 r2 : PayoutResponse),
       r2.main_id = r1.main_id →
       (get_payouts (some (get_payouts (some cur) r1)) r2).payouts
         = (get_payouts (some cur) r1).payouts) ∧
    (∀ (rec : AccountRecord) (pid : ℕ) (resp : PayoutResponse),
       rec.last_payout_id = some pid → pid ≠ resp.main_id →
       (get_payouts (some rec) resp).payouts
         = some (rec.payouts.getD 0 + resp.coinbase_reward)) := by
  constructor
  · intro cur r1 r2 hsame
    simp [get_payouts, hsame]
  · intro rec pid resp hpid hdiff
    simp [get_payouts, hpid, hdiff]

/-- Claim C2, witness: a record with `payouts = 3`, `last_payout_id = 5`
polled with payout id 7 / reward 100 accumulates to 103; a repeated poll of
id 7 leaves `payouts` at 103. -/
theorem claim2_payouts_dedup_witness :
    (get_payouts
        (some (get_payouts
          (some { payouts := some 3, last_payout_id := some 5 }) ⟨7, 100⟩))
        ⟨7, 9⟩).payouts
      = (get_payouts
          (some { payouts := some 3, last_payout_id := some 5 })
          ⟨7, 100⟩).payouts ∧
    (get_payouts (some { payouts := some 3, last_payout_id := some 5 })
        ⟨7, 100⟩).payouts
      = some ((3 : ℚ) + 100) :=
  ⟨claim2_payouts_dedup.1 { payouts := some 3, last_payout_id := some 5 }
      ⟨7, 100⟩ ⟨7, 9⟩ rfl,
   claim2_payouts_dedup.2 { payouts := some 3, last_payout_id := some 5 }
      5 ⟨7, 100⟩ rfl (by norm_num)⟩

/-- The `last_timestamp` loop never goes below its accumulator. -/
theorem derived_foldl_ge (l : List SBEntry) :
    ∀ a : ℤ,
      a ≤ l.foldl
        (fun acc b => if acc < b.timestamp then b.timestamp else acc) a := by
  induction l with
  | nil => intro a; simp
  | cons b rest ih =>
      intro a
      rw [List.foldl_cons]
      refine le_trans ?_ (ih _)
      split
      · exact le_of_lt (by assumption)
      · exact le_rfl

/-- The derived `last_timestamp` of a side-blocks response is at least the
loop's initial value 0. -/
theorem derived_last_timestamp_nonneg (response : List (Option SBEntry)) :
    0 ≤ derived_last_timestamp response :=
  derived_foldl_ge (response.filterMap id) 0

/-- When `get_sideblocks` on a stored record succeeds, the written
`last_share_timestamp` is the stored one when that is truthy and at least
the derived maximum, and the derived maximum otherwise. -/
theorem get_sideblocks_ok_ts (data : AccountRecord)
    (response : List (Option SBEntry)) (now : ℚ) (r : AccountRecord)
    (hok : get_sideblocks (some data) response now = .ok r) :
    r.last_share_timestamp = some
      (match data.last_share_timestamp with
       | some p => if p ≠ 0 ∧ derived_last_timestamp response ≤ p
                   then p else derived_last_timestamp response
       | none => derived_last_timestamp response) := by
  simp only [get_sideblocks] at hok
  split at hok
  · exact absurd hok (fun h => Except.noConfusion h)
  · split at hok
    · exact absurd hok (fun h => Except.noConfusion h)
    · injection hok with h
      rw [← h]

/-- When `get_sideblocks` on a record storing `last_share_timestamp = v`
succeeds, the written timestamp is `≥ v`, and equals `v` whenever the
poll's derived maximum is `≤ v`. -/
theorem get_sideblocks_ts_mono (data : AccountRecord) (v : ℤ)
    (response : List (Option SBEntry)) (now : ℚ) (r : AccountRecord)
    (hv : data.last_share_timestamp = some v)
    (hok : get_sideblocks (some data) response now = .ok r) :
    ∃ w, r.last_share_timestamp = some w ∧ v ≤ w ∧
      (derived_last_timestamp response ≤ v → w = v) := by
  have h := get_sideblocks_ok_ts data response now r hok
  rw [hv] at h
  by_cases hc : v ≠ 0 ∧ derived_last_timestamp response ≤ v
  · exact ⟨v, by simpa [hc] using h, le_rfl, fun _ => rfl⟩
  · refine ⟨derived_last_timestamp response, by simpa [hc] using h, ?_, ?_⟩
    · push_neg at hc
      by_cases hv0 : v = 0
      · subst hv0; exact derived_last_timestamp_nonneg response
      · exact le_of_lt (hc hv0)
    · intro hle
      push_neg at hc
      by_cases hv0 : v = 0
      · subst hv0
        exact le_antisymm hle (derived_last_timestamp_nonneg response)
      · exact absurd hle (not_le_of_lt (hc hv0))

/-- Unfolding a poll sequence by one poll. -/
theorem sideblocks_poll_seq_cons (init : AccountRecord)
    (p : List (Option SBEntry) × ℚ)
    (rest : List (List (Option SBEntry) × ℚ)) :
    sideblocks_poll_seq init (p :: rest)
      = sideblocks_poll_seq
          (match get_sideblocks (some init) p.1 p.2 with
           | .ok r => r
           | .error _ => init) rest := rfl

/-- Across any sequence of side-block polls, a stored
`last_share_timestamp` stays present and never decreases. -/
theorem sideblocks_poll_seq_mono
    (polls : List (List (Option SBEntry) × ℚ)) :
    ∀ (data : AccountRecord) (v : ℤ),
      data.last_share_timestamp = some v →
      ∃ w, (sideblocks_poll_seq data polls).last_share_timestamp = some w ∧
        v ≤ w := by
  induction polls with
  | nil => intro data v hv; exact ⟨v, hv, le_rfl⟩
  | cons p rest ih =>
      intro data v hv
      rw [sideblocks_poll_seq_cons]
      cases hg : get_sideblocks (some data) p.1 p.2 with
      | error e => simp only [hg]; exact ih data v hv
      | ok r =>
          simp only [hg]
          obtain ⟨w1, hw1, hvw1, _⟩ :=
            get_sideblocks_ts_mono data v p.1 p.2 r hv hg
          obtain ⟨w, hw, hww⟩ := ih r w1 hw1
          exact ⟨w, hw, le_trans hvw1 hww⟩

/-- Claim C3: for an account whose stored record has a
`last_share_timestamp` value, (i) a sideblocks poll whose derived maximum
timestamp is `≤` the stored value writes the stored value back unchanged;
(ii) across any sequence of polls the stored field stays present and
(iii) never regresses. -/
theorem claim3_last_share_timestamp_never_regresses :
    (∀ (data : AccountRecord) (v : ℤ) (response : List (Option SBEntry))
       (now : ℚ) (r : AccountRecord),
       data.last_share_timestamp = some v →
       derived_last_timestamp response ≤ v →
       get_sideblocks (some data) response now = .ok r →
       r.last_share_timestamp = some v) ∧
    (∀ (data : AccountRecord) (v : ℤ)
       (polls : List (List (Option SBEntry) × ℚ)),
       data.last_share_timestamp = some v →
       (sideblocks_poll_seq data polls).last_share_timestamp.isSome
         = true) ∧
    (∀ (data : AccountRecord) (v w : ℤ)
       (polls : List (List (Option SBEntry) × ℚ)),
       data.last_share_timestamp = some v →
       (sideblocks_poll_seq data polls).last_share_timestamp = some w →
       v ≤ w) := by
  refine ⟨?_, ?_, ?_⟩
  · intro data v response now r hv hle hok
    obtain ⟨w, hw, _, heq⟩ :=
      get_sideblocks_ts_mono data v response now r hv hok
    rw [hw, heq hle]
  · intro data v polls hv
    obtain ⟨w, hw, _⟩ := sideblocks_poll_seq_mono polls data v hv
    rw [hw]
    rfl
  · intro data v w polls hv hw
    obtain ⟨w1, hw1, hvw⟩ := sideblocks_poll_seq_mono polls data v hv
    rw [hw] at hw1
    injection hw1 with h
    omega

/-- Claim C3, witness: a record storing timestamp 100 polled with an empty
response (derived maximum 0) keeps 100; over a one-poll sequence the field
stays present and at least 100. -/
theorem claim3_witness :
    ({ last_share_timestamp := some 100, total_blocks := some 0,
       hashrate := some 0 } : AccountRecord).last_share_timestamp
        = some 100 ∧
    (sideblocks_poll_seq { last_share_timestamp := some 100 }
        [([], 600)]).last_share_timestamp.isSome = true ∧
    (100 : ℤ) ≤ 100 :=
  ⟨claim3_last_share_timestamp_never_regresses.1
      { last_share_timestamp := some 100 } 100 [] 600
      { last_share_timestamp := some 100, total_blocks := some 0,
        hashrate := some 0 }
      rfl
      (by norm_num [derived_last_timestamp])
      (by norm_num [get_sideblocks, derived_last_timestamp,
                    estimate_hashrate]),
   claim3_last_share_timestamp_never_regresses.2.1
      { last_share_timestamp := some 100 } 100 [([], 600)] rfl,
   claim3_last_share_timestamp_never_regresses.2.2
      { last_share_timestamp := some 100 } 100 100 [([], 600)] rfl
      (by norm_num [sideblocks_poll_seq, get_sideblocks,
                    derived_last_timestamp, estimate_hashrate])⟩

/-- Claim C6, counterexample: a stream message whose JSON object has no
`"type"` key makes `msg["type"]` raise `KeyError` out of the dispatch; the
raise aborts the `async for` loop, so a later well-formed message on the
same connection is never processed (the loop result is `true`, i.e. the
connection is abandoned and the listener reconnects). -/
theorem claim6_counterexample :
    (ws_dispatch {} { type := none }).2 = .error () ∧
    ws_process_messages {} [{ type := none },
        { type := some "orphaned_block" }]
      = ({ ws_event_counter := 1 }, true) := by
  constructor
  · rfl
  · rfl

/-- Claim C6 (amended): a message whose `"type"` field is present but is
none of `side_block`, `found_block`, `orphaned_block` is counted (the
per-message event counter) and logged (the unknown-type `logger.warn`), and
the listener continues with the next messages on the same connection; a
message *missing* the `"type"` key (or a `side_block`/`found_block` message
missing payload fields) instead raises `KeyError` out of the dispatch,
which abandons the connection and forces a reconnect. -/
theorem claim6_unknown_type_handled (m : WsMetrics) (msg : WsMessage)
    (t : String) (rest : List WsMessage)
    (ht : msg.type = some t)
    (h1 : t ≠ "side_block") (h2 : t ≠ "found_block")
    (h3 : t ≠ "orphaned_block") :
    ws_dispatch m msg
      = ({ m with ws_event_counter := m.ws_event_counter + 1,
                  unknown_warn_count := m.unknown_warn_count + 1 },
         .ok ()) ∧
    ws_process_messages m (msg :: rest)
      = ws_process_messages
          { m with ws_event_counter := m.ws_event_counter + 1,
                   unknown_warn_count := m.unknown_warn_count + 1 }
          rest := by
  have hd : ws_dispatch m msg
      = ({ m with ws_event_counter := m.ws_event_counter + 1,
                  unknown_warn_count := m.unknown_warn_count + 1 },
         .ok ()) := by
    simp [ws_dispatch, ht, h1, h2, h3]
  refine ⟨hd, ?_⟩
  rw [ws_process_messages, hd]

/-- Claim C6, witness: the amended statement at an unknown type `"bogus"`
from fresh metrics. -/
theorem claim6_unknown_type_handled_witness :
    ws_dispatch {} { type := some "bogus" }
      = ({ ws_event_counter := 1, unknown_warn_count := 1 }, .ok ()) ∧
    ws_process_messages {} [{ type := some "bogus" }]
      = ws_process_messages
          { ws_event_counter := 1, unknown_warn_count := 1 } [] :=
  claim6_unknown_type_handled {} { type := some "bogus" } "bogus" [] rfl
    (by decide) (by decide) (by decide)

/-- Claim C7: every pass of the listener's `while True` body ends in a
reconnect decision, never termination; on a failed connection attempt, and
on a connection abandoned by a raise during message processing, the
decision is to sleep the fixed 5-second backoff and reconnect; the loop's
trace is defined after every number of passes, for every sequence of
connection outcomes. -/
theorem claim7_listener_retries_forever :
    (∀ (m : WsMetrics) (c : ConnAttempt),
       (c = .failed →
          (listener_iteration m c).2 = .sleepThenReconnect 5) ∧
       (∀ msgs, c = .stream msgs →
          (ws_process_messages m msgs).2 = true →
          (listener_iteration m c).2 = .sleepThenReconnect 5) ∧
       (listener_iteration m c).2 ≠ .terminate) ∧
    (∀ (m : WsMetrics) (conns : ℕ → ConnAttempt) (n : ℕ),
       (listener_trace m conns n).2 ≠ .terminate) := by
  have hiter : ∀ (m : WsMetrics) (c : ConnAttempt),
      (listener_iteration m c).2 = .sleepThenReconnect 5 ∨
      (listener_iteration m c).2 = .reconnectImmediately := by
    intro m c
    cases c with
    | failed => exact Or.inl rfl
    | stream msgs =>
        simp only [listener_iteration]
        rcases h : ws_process_messages m msgs with ⟨m1, b⟩
        cases b
        · exact Or.inr rfl
        · exact Or.inl rfl
  have hnoterm : ∀ (m : WsMetrics) (c : ConnAttempt),
      (listener_iteration m c).2 ≠ .terminate := by
    intro m c h
    rcases hiter m c with h5 | hi
    · rw [h] at h5; exact ListenerAction.noConfusion h5
    · rw [h] at hi; exact ListenerAction.noConfusion hi
  refine ⟨fun m c => ⟨?_, ?_, hnoterm m c⟩, ?_⟩
  · intro hc; subst hc; rfl
  · intro msgs hc habort
    subst hc
    simp only [listener_iteration]
    rcases h : ws_process_messages m msgs with ⟨m1, b⟩
    rw [h] at habort
    simp only at habort
    subst habort
    rfl
  · intro m conns n
    cases n with
    | zero => exact hnoterm m (conns 0)
    | succ k => exact hnoterm (listener_trace m conns k).1 (conns (k + 1))

/-- Claim C7, witness: with fresh metrics, a failed connection attempt
leads to a 5-second sleep and reconnect, and the trace after the first
pass does not terminate. -/
theorem claim7_listener_retries_forever_witness :
    (listener_iteration {} .failed).2 = .sleepThenReconnect 5 ∧
    (listener_trace {} (fun _ => .failed) 0).2 ≠ .terminate :=
  ⟨(claim7_listener_retries_forever.1 {} .failed).1 rfl,
   claim7_listener_retries_forever.2 {} (fun _ => .failed) 0⟩

end P2Pool
